import Mathlib

/-!
# Brewtarget pitch-rate dialog (`src/PitchDialog.cpp`)

A shallow embedding of `PitchDialog` and the proofs of its specification.

Modelling conventions.

* `double` is `Dbl`: a finite value (a rational; zero is unsigned and read as
  `+0`), or one of `+inf`, `-inf`, `NaN`, with the IEEE-754 rules for these.
  The operations `+ - * /` are exact: a value that is only rendered is the
  exact value of its expression.  Where the code converts a double to an
  `int` the model converts the binary64 value itself: every operation on the
  way to it is followed by `Dbl.rnd`, the IEEE-754 rounding to the nearest
  binary64 number, ties to even (with gradual underflow and overflow to an
  infinity), and a literal that is no binary64 number is `Dbl.lit`.
* `int` is `Int`; the one `int * int` product of the dialog wraps at 32 bits.
* The widgets are records of the properties the dialog reads and writes,
  with the Qt semantics of `QSpinBox::setValue` and `QSpinBox::setMaximum`.
  Their initial properties come from the form (`ui/pitchDialog.ui`) and are
  left free.
* Functions of other modules (`Brewtarget::volQStringToSI`,
  `Brewtarget::displayAmount`, `Algorithms::SG_20C20C_toPlato`) and of
  libraries (`QString::toDouble`, `QString::arg`, `pow` on a positive finite
  base, `QDate::currentDate`) are fields of `Env`; `QString` is a type
  parameter.
* A slot connected to a signal runs when the signal is emitted.  `calculate`
  is connected to `valueChanged(int)` of both spin boxes, so it can be entered
  again from inside itself; the nesting depth is the `fuel` argument.
-/

namespace Brewtarget

/-! ## `double` -/

/-- A `double`: finite, `+inf`, `-inf` or `NaN`. -/
inductive Dbl where
  | fin (q : ℚ)
  | pinf
  | ninf
  | nan
  deriving DecidableEq

namespace Dbl

/-- Conversion `int → double` (exact). -/
def ofInt (i : Int) : Dbl := fin i

/-- Unary minus. -/
def neg : Dbl → Dbl
  | fin a => fin (-a)
  | pinf => ninf
  | ninf => pinf
  | nan => nan

/-- Addition of doubles. -/
def add : Dbl → Dbl → Dbl
  | nan, _ => nan
  | _, nan => nan
  | fin a, fin b => fin (a + b)
  | pinf, ninf => nan
  | ninf, pinf => nan
  | pinf, _ => pinf
  | ninf, _ => ninf
  | fin _, pinf => pinf
  | fin _, ninf => ninf

/-- Subtraction of doubles. -/
def sub (x y : Dbl) : Dbl := add x (neg y)

/-- Multiplication of doubles. -/
def mul : Dbl → Dbl → Dbl
  | nan, _ => nan
  | _, nan => nan
  | fin a, fin b => fin (a * b)
  | fin a, pinf => if a = 0 then nan else if 0 < a then pinf else ninf
  | fin a, ninf => if a = 0 then nan else if 0 < a then ninf else pinf
  | pinf, fin b => if b = 0 then nan else if 0 < b then pinf else ninf
  | ninf, fin b => if b = 0 then nan else if 0 < b then ninf else pinf
  | pinf, pinf => pinf
  | pinf, ninf => ninf
  | ninf, pinf => ninf
  | ninf, ninf => pinf

/-- Division of doubles; a zero divisor is `+0`. -/
def div : Dbl → Dbl → Dbl
  | nan, _ => nan
  | _, nan => nan
  | fin a, fin b =>
    if b = 0 then (if a = 0 then nan else if 0 < a then pinf else ninf) else fin (a / b)
  | fin _, pinf => fin 0
  | fin _, ninf => fin 0
  | pinf, fin b => if 0 ≤ b then pinf else ninf
  | ninf, fin b => if 0 ≤ b then ninf else pinf
  | pinf, pinf => nan
  | pinf, ninf => nan
  | ninf, pinf => nan
  | ninf, ninf => nan

instance : Add Dbl := ⟨add⟩
instance : Sub Dbl := ⟨sub⟩
instance : Mul Dbl := ⟨mul⟩
instance : Div Dbl := ⟨div⟩

/-- Comparison `x < y` of doubles (false as soon as one side is `NaN`). -/
def lt : Dbl → Dbl → Bool
  | nan, _ => false
  | _, nan => false
  | fin a, fin b => decide (a < b)
  | ninf, ninf => false
  | ninf, _ => true
  | _, ninf => false
  | pinf, _ => false
  | fin _, pinf => true

/-- The C library `floor`. -/
def floor : Dbl → Dbl
  | fin a => fin ⌊a⌋
  | x => x

/-- Whether a finite value is an integer. -/
def isInteger (b : ℚ) : Bool := b.den = 1

/-- Whether a finite value is an odd integer. -/
def isOddInteger (b : ℚ) : Bool := b.den = 1 && b.num % 2 = 1

/-- The C library `pow(x, y)` (C99 F.9.4.4); `powPos a b` is its value at a
finite base `a > 0` and a finite exponent `b ≠ 0`, which is not rational in
general. -/
def pow (powPos : ℚ → ℚ → Dbl) (x y : Dbl) : Dbl :=
  if y = fin 0 then fin 1
  else if x = fin 1 then fin 1
  else
    match x, y with
    | nan, _ => nan
    | _, nan => nan
    | fin a, fin b =>
      if a = 0 then (if 0 < b then fin 0 else pinf)
      else if 0 < a then powPos a b
      else if isInteger b then (if isOddInteger b then neg (powPos (-a) b) else powPos (-a) b)
      else nan
    | fin a, pinf => if |a| < 1 then fin 0 else if |a| = 1 then fin 1 else pinf
    | fin a, ninf => if |a| < 1 then pinf else if |a| = 1 then fin 1 else fin 0
    | pinf, fin b => if 0 < b then pinf else fin 0
    | pinf, pinf => pinf
    | pinf, ninf => fin 0
    | ninf, fin b =>
      if 0 < b then (if isOddInteger b then ninf else pinf) else fin 0
    | ninf, pinf => pinf
    | ninf, ninf => fin 0

/-- Conversion `double → int`: truncation toward zero.  The conversion of a
value that is not finite or whose truncation does not fit 32 bits is undefined
in C++; `outOfRange` is what the platform yields there. -/
def toInt (outOfRange : Dbl → Int) : Dbl → Int
  | fin a =>
    let t : Int := if 0 ≤ a then ⌊a⌋ else ⌈a⌉
    if -2147483648 ≤ t ∧ t ≤ 2147483647 then t else outOfRange (fin a)
  | x => outOfRange x

/-- Rounding of a rational to the nearest integer, ties to even. -/
def roundEven (x : ℚ) : Int :=
  if x - ⌊x⌋ < 1 / 2 then ⌊x⌋
  else if 1 / 2 < x - ⌊x⌋ then ⌊x⌋ + 1
  else if ⌊x⌋ % 2 = 0 then ⌊x⌋ else ⌊x⌋ + 1

/-- The exponent of the unit in the last place of the binary64 numbers of the
magnitude of `q`: 52 below the exponent of `q`, and `-1074` for the subnormal
numbers. -/
def ulpExp (q : ℚ) : Int := max (Int.log 2 |q|) (-1022) - 52

/-- The binary64 number nearest to `q`, ties to even; an infinity when the
rounded magnitude reaches `2^1024`. -/
def round64 (q : ℚ) : Dbl :=
  if q = 0 then fin 0
  else
    let r : ℚ := roundEven (q / 2 ^ ulpExp q) * 2 ^ ulpExp q
    if 2 ^ (1024 : Int) ≤ |r| then (if 0 < q then pinf else ninf) else fin r

/-- The rounding that ends a binary64 operation. -/
def rnd : Dbl → Dbl
  | fin q => round64 q
  | x => x

/-- A decimal literal of the source: the nearest binary64 number. -/
def lit (q : ℚ) : Dbl := round64 q

end Dbl

/-- The `int * int` product, wrapping at 32 bits. -/
def imul (a b : Int) : Int := (a * b + 2147483648) % 4294967296 - 2147483648

/-! ## Widgets -/

/-- The units passed to `Brewtarget::displayAmount`. -/
inductive Units where
  | liters
  | grams
  deriving DecidableEq

/-- A `QSpinBox`: the properties the dialog uses.  Qt keeps
`minimum ≤ value ≤ maximum`. -/
structure QSpinBox where
  minimum : Int
  maximum : Int
  value : Int
  enabled : Bool
  deriving DecidableEq

namespace QSpinBox

/-- Qt `QAbstractSpinBoxPrivate::bound` (no wrapping). -/
def bound (sb : QSpinBox) (v : Int) : Int :=
  let v1 := if v < sb.minimum then sb.minimum else v
  if v1 > sb.maximum then sb.maximum else v1

/-- Qt `QSpinBox::setValue`: the value is bounded by the range. -/
def setValue (sb : QSpinBox) (v : Int) : QSpinBox :=
  { sb with value := sb.bound v }

/-- Qt `QAbstractSpinBoxPrivate::setRange`: sets the range, keeping
`minimum ≤ maximum`, then bounds the value. -/
def setRange (sb : QSpinBox) (min max : Int) : QSpinBox :=
  let sb1 := { sb with minimum := min, maximum := if min < max then max else min }
  { sb1 with value := sb1.bound sb1.value }

/-- Qt `QSpinBox::setMaximum`: "the minimum is adjusted if necessary, to
ensure that the range remains valid". -/
def setMaximum (sb : QSpinBox) (m : Int) : QSpinBox :=
  sb.setRange (if sb.minimum < m then sb.minimum else m) m

end QSpinBox

/-- A `QDateEdit`; a date is its Julian day number. -/
structure QDateEdit where
  date : Int
  enabled : Bool
  deriving DecidableEq

/-- The collaborators of the dialog that are not in `PitchDialog.cpp`. -/
structure Env (QString : Type) where
  /-- `QString::toDouble(&ok)`: `none` when `ok` is false. -/
  toDouble : QString → Option Dbl
  /-- `Brewtarget::volQStringToSI`. -/
  volQStringToSI : QString → Dbl
  /-- `Algorithms::Instance().SG_20C20C_toPlato`. -/
  SG_20C20C_toPlato : Dbl → Dbl
  /-- `Brewtarget::displayAmount(amount, units)`. -/
  displayAmount : Dbl → Units → QString
  /-- `QString("%L1").arg(x, 1, 'f', prec, QChar('0'))`. -/
  arg : Dbl → Nat → QString
  /-- `pow` on a finite positive base. -/
  powPos : ℚ → ℚ → Dbl
  /-- What an undefined `double → int` conversion yields. -/
  intOutOfRange : Dbl → Int
  /-- `QDate::currentDate()`. -/
  currentDate : Int

/-- The state of a `PitchDialog`: its widgets. -/
structure PitchDialog (QString : Type) where
  lineEdit_vol : QString
  lineEdit_OG : QString
  slider_pitchRate : Int
  spinBox_Viability : QSpinBox
  spinBox_VialsPitched : QSpinBox
  comboBox_AerationMethod : Int
  dateEdit_ProductionDate : QDateEdit
  lineEdit_cells : QString
  lineEdit_starterVol : QString
  lineEdit_yeast : QString
  lineEdit_vials : QString
  label_pitchRate : QString

/-! ## The slots of `PitchDialog` -/

section Slots

variable {QString : Type}

open Dbl in
/-- The body of `PitchDialog::calculate()`.  `setMaximum` emits
`valueChanged(int)` when it changes the value of `spinBox_VialsPitched`; the
slot connected to that signal is `calculate()` itself, here `valueChanged`,
which runs before the body goes on. -/
def calculateBody (env : Env QString)
    (valueChanged : PitchDialog QString → Option (PitchDialog QString))
    (d : PitchDialog QString) : Option (PitchDialog QString) :=
  let rate_MpermLP := (fin 2 - fin 0.75) * ofInt d.slider_pitchRate / fin 100.0 + fin 0.75
  match env.toDouble d.lineEdit_OG with
  | none => some d
  | some og =>
    let vol_l := env.volQStringToSI d.lineEdit_vol
    let plato := env.SG_20C20C_toPlato og
    let cells := (rate_MpermLP * fin 1e6) * (vol_l * fin 1e3) * plato
    let vials := cells / (ofInt d.spinBox_Viability.value * fin 1e9)
    let dry_g := cells / fin 20e9
    -- the binary64 value of `vials`, which `vials < 1` and `floor` read
    let rate_d := rnd (rnd (rnd (rnd (fin 2 - fin 0.75) * ofInt d.slider_pitchRate) / fin 100.0)
      + fin 0.75)
    let cells_d := rnd (rnd (rnd (rate_d * fin 1e6) * rnd (vol_l * fin 1e3)) * plato)
    let vials_d := rnd (cells_d / rnd (ofInt d.spinBox_Viability.value * fin 1e9))
    let sb := d.spinBox_VialsPitched.setMaximum
      (toInt env.intOutOfRange (if lt vials_d (fin 1) then fin 1 else floor vials_d))
    let d1 := { d with spinBox_VialsPitched := sb }
    match (if sb.value = d.spinBox_VialsPitched.value then some d1 else valueChanged d1) with
    | none => none
    | some d2 =>
      let aerationFactor : Dbl :=
        if d2.comboBox_AerationMethod = 1 then fin 1.33
        else if d2.comboBox_AerationMethod = 2 then fin 2.66
        else fin 1
      let totalCellsPitched :=
        ofInt (imul d2.spinBox_VialsPitched.value d2.spinBox_Viability.value)
      let growthRate := (cells / fin 1e9) / totalCellsPitched
      let inoculationRate := pow env.powPos (fin 12.522 / growthRate) (fin 2.18)
      let starterVol_l := totalCellsPitched / (inoculationRate * aerationFactor)
      some { d2 with
        lineEdit_cells := env.arg (cells / fin 1e9) 0
        lineEdit_starterVol := env.displayAmount starterVol_l Units.liters
        lineEdit_yeast := env.displayAmount dry_g Units.grams
        lineEdit_vials := env.arg vials 1 }

/-- `PitchDialog::calculate()`, with at most `fuel` nested runs of the slot. -/
def calculate (env : Env QString) : Nat → PitchDialog QString → Option (PitchDialog QString)
  | 0, _ => none
  | fuel + 1, d => calculateBody env (calculate env fuel) d

open Dbl in
/-- `PitchDialog::updateShownPitchRate(int percent)`. -/
def updateShownPitchRate (env : Env QString) (percent : Int) (d : PitchDialog QString) :
    PitchDialog QString :=
  let rate_MpermLP := (fin 2 - fin 0.75) * ofInt percent / fin 100.0 + fin 0.75
  { d with label_pitchRate := env.arg rate_MpermLP 2 }

open Dbl in
/-- `PitchDialog::updateViabilityFromDate(QDate date)`.  The argument of
`setValue` is the binary64 value of `97 - 0.7 * daysDifference` converted to
`int`.  `setValue` emits `valueChanged(int)` when the value changes, which
runs `calculate()`. -/
def updateViabilityFromDate (env : Env QString) (fuel : Nat) (date : Int)
    (d : PitchDialog QString) : Option (PitchDialog QString) :=
  let daysDifference : Int := env.currentDate - date
  let sb := d.spinBox_Viability.setValue
    (toInt env.intOutOfRange (rnd (fin 97 - rnd (lit 0.7 * ofInt daysDifference))))
  let d1 := { d with spinBox_Viability := sb }
  if sb.value = d.spinBox_Viability.value then some d1 else calculate env fuel d1

end Slots

/-! ## A reference environment

Concrete collaborators on which the model can be evaluated.  Texts are kept
symbolic: what was typed, or a number together with the format it is rendered
in, so that two rendered texts are equal exactly when value and format are. -/

/-- The texts of the reference environment. -/
inductive Text where
  | typed (s : String)
  | amount (x : Dbl) (u : Units)
  | fixed (x : Dbl) (prec : Nat)
  deriving DecidableEq

/-- The number written by a list of decimal digits. -/
def digitsValue (cs : List Char) : Nat :=
  cs.foldl (fun n c => 10 * n + (c.toNat - 48)) 0

/-- An unsigned decimal number `ddd` or `ddd.ddd`: its digits read as one
number, and the count of digits after the point. -/
def parseDecimal (s : String) : Option (Nat × Nat) :=
  let cs := s.toList
  let ip := cs.takeWhile Char.isDigit
  match cs.dropWhile Char.isDigit with
  | [] => if ip = [] then none else some (digitsValue ip, 0)
  | c :: fr =>
    if c = '.' ∧ fr.all Char.isDigit ∧ ip ++ fr ≠ [] then
      some (digitsValue (ip ++ fr), fr.length)
    else none

/-- The number a text parses to in the reference environment. -/
def Text.toDouble : Text → Option Dbl
  | Text.typed s =>
    match parseDecimal s with
    | some (m, k) => some (Dbl.fin ((m : ℚ) / 10 ^ k))
    | none => none
  | _ => none

/-- The reference environment: decimal texts, volumes in liters (0 for a text
that is no number), the usual cubic fit of degrees Plato against specific
gravity, the square in place of the power 2.18, `INT_MIN` for an undefined
conversion. -/
def refEnv : Env Text where
  toDouble := Text.toDouble
  volQStringToSI := fun t => (Text.toDouble t).getD (Dbl.fin 0)
  SG_20C20C_toPlato := fun sg =>
    Dbl.fin (-616.868) + Dbl.fin 1111.14 * sg + Dbl.fin (-630.272) * (sg * sg)
      + Dbl.fin 135.997 * (sg * sg * sg)
  displayAmount := Text.amount
  arg := Text.fixed
  powPos := fun a _ => Dbl.fin (a * a)
  intOutOfRange := fun _ => -2147483648
  currentDate := 2455198

/-- A dialog of the reference environment: gravity 1.050, 5 liters, pitch rate
slider at 50, viability 95 in the range 0 to 100, two vials pitched in the
range 0 to 100, no aeration, production date today, viability entered by hand,
and texts left by an earlier calculation. -/
def refDialog : PitchDialog Text where
  lineEdit_vol := Text.typed "5"
  lineEdit_OG := Text.typed "1.050"
  slider_pitchRate := 50
  spinBox_Viability := { minimum := 0, maximum := 100, value := 95, enabled := true }
  spinBox_VialsPitched := { minimum := 0, maximum := 100, value := 2, enabled := true }
  comboBox_AerationMethod := 0
  dateEdit_ProductionDate := { date := 2455198, enabled := false }
  lineEdit_cells := Text.typed "123"
  lineEdit_starterVol := Text.typed "1.000 L"
  lineEdit_yeast := Text.typed "6.000 g"
  lineEdit_vials := Text.typed "1.3"
  label_pitchRate := Text.typed "0.75"

/-- The reference dialog with the volume text "abc", which is no number. -/
def refDialogVolAbc : PitchDialog Text :=
  { refDialog with lineEdit_vol := Text.typed "abc" }

/-- The reference dialog with a viability spin box that admits negative
values. -/
def refDialogNegative : PitchDialog Text :=
  { refDialog with
    spinBox_Viability := { minimum := -100, maximum := 100, value := 95, enabled := true } }

/-- The reference dialog with other texts in its output fields and another
maximum of the vials-pitched spin box. -/
def refDialogOther : PitchDialog Text :=
  { refDialog with
    spinBox_VialsPitched := { minimum := 1, maximum := 7, value := 2, enabled := true }
    lineEdit_cells := Text.typed "999"
    lineEdit_starterVol := Text.typed "9.000 L"
    lineEdit_yeast := Text.typed "9.000 g"
    lineEdit_vials := Text.typed "9.9" }

/-! ## The formulas of the specification (section 4.1, `computeStarter`) -/

/-- Step 1: `rate = 0.75 + 1.25 × pitchRatePercent/100`. -/
def specRate (pitchRatePercent : Int) : Dbl :=
  Dbl.fin (0.75 + 1.25 * pitchRatePercent / 100)

/-- Step 4: `totalCells = rate × 1e6 × (volumeLiters × 1e3) × plato`. -/
def specTotalCells (rate volumeLiters plato : Dbl) : Dbl :=
  rate * Dbl.fin 1e6 * (volumeLiters * Dbl.fin 1e3) * plato

/-- Step 5: `vialsNeededNoStarter = totalCells / (viabilityPercent × 1e9)`. -/
def specVialsNeededNoStarter (totalCells : Dbl) (viabilityPercent : Int) : Dbl :=
  totalCells / (Dbl.ofInt viabilityPercent * Dbl.fin 1e9)

/-- Step 12: `dryYeastGrams = totalCells / 20e9`. -/
def specDryYeastGrams (totalCells : Dbl) : Dbl :=
  totalCells / Dbl.fin 20e9

/-- The total cell count of the specification for a dialog whose gravity text
parses to `og`. -/
def specCellsOf {QString : Type} (env : Env QString) (og : Dbl) (d : PitchDialog QString) :
    Dbl :=
  specTotalCells (specRate d.slider_pitchRate) (env.volQStringToSI d.lineEdit_vol)
    (env.SG_20C20C_toPlato og)

/-! ## How `calculate` runs -/

section Lemmas

variable {QString : Type}

open Dbl in
/-- The cell count `cells` of `calculate` for the parsed gravity `og`. -/
def cellsOf (env : Env QString) (og : Dbl) (d : PitchDialog QString) : Dbl :=
  ((fin 2 - fin 0.75) * ofInt d.slider_pitchRate / fin 100.0 + fin 0.75) * fin 1e6
    * (env.volQStringToSI d.lineEdit_vol * fin 1e3) * env.SG_20C20C_toPlato og

open Dbl in
/-- The value `vials` of `calculate`. -/
def vialsOf (env : Env QString) (og : Dbl) (d : PitchDialog QString) : Dbl :=
  cellsOf env og d / (ofInt d.spinBox_Viability.value * fin 1e9)

open Dbl in
/-- The binary64 value of `vials` in `calculate`. -/
def vialsDoubleOf (env : Env QString) (og : Dbl) (d : PitchDialog QString) : Dbl :=
  rnd (rnd (rnd (rnd (rnd (rnd (rnd (rnd (fin 2 - fin 0.75) * ofInt d.slider_pitchRate)
    / fin 100.0) + fin 0.75) * fin 1e6) * rnd (env.volQStringToSI d.lineEdit_vol * fin 1e3))
    * env.SG_20C20C_toPlato og) / rnd (ofInt d.spinBox_Viability.value * fin 1e9))

open Dbl in
/-- The argument `calculate` passes to `setMaximum`. -/
def maximumOf (env : Env QString) (og : Dbl) (d : PitchDialog QString) : Int :=
  toInt env.intOutOfRange
    (if lt (vialsDoubleOf env og d) (fin 1) then fin 1 else floor (vialsDoubleOf env og d))

open Dbl in
/-- The value `starterVol_l` of `calculate` when `spinBox_VialsPitched` holds
`pitched`. -/
def starterOf (env : Env QString) (og : Dbl) (d : PitchDialog QString) (pitched : Int) : Dbl :=
  let aerationFactor : Dbl :=
    if d.comboBox_AerationMethod = 1 then fin 1.33
    else if d.comboBox_AerationMethod = 2 then fin 2.66
    else fin 1
  let totalCellsPitched := ofInt (imul pitched d.spinBox_Viability.value)
  let growthRate := (cellsOf env og d / fin 1e9) / totalCellsPitched
  let inoculationRate := pow env.powPos (fin 12.522 / growthRate) (fin 2.18)
  totalCellsPitched / (inoculationRate * aerationFactor)

open Dbl in
/-- The dialog `calculate` leaves when the gravity text parses to `og`. -/
def calculated (env : Env QString) (og : Dbl) (d : PitchDialog QString) : PitchDialog QString :=
  let sb := d.spinBox_VialsPitched.setMaximum (maximumOf env og d)
  { d with
    spinBox_VialsPitched := sb
    lineEdit_cells := env.arg (cellsOf env og d / fin 1e9) 0
    lineEdit_starterVol := env.displayAmount (starterOf env og d sb.value) Units.liters
    lineEdit_yeast := env.displayAmount (cellsOf env og d / fin 20e9) Units.grams
    lineEdit_vials := env.arg (vialsOf env og d) 1 }

/-! ### Spin boxes -/

theorem QSpinBox.setMaximum_maximum (m : Int) (sb : QSpinBox) :
    (sb.setMaximum m).maximum = m := by
  simp only [QSpinBox.setMaximum, QSpinBox.setRange]
  split_ifs <;> omega

theorem QSpinBox.setMaximum_minimum (m : Int) (sb : QSpinBox) :
    (sb.setMaximum m).minimum = min sb.minimum m := by
  simp only [QSpinBox.setMaximum, QSpinBox.setRange]
  split_ifs <;> omega

theorem QSpinBox.bound_eq_min_max (v : Int) (sb : QSpinBox) :
    sb.bound v = min (max v sb.minimum) sb.maximum := by
  simp only [QSpinBox.bound]
  split_ifs <;> omega

theorem QSpinBox.setMaximum_value (m : Int) (sb : QSpinBox) :
    (sb.setMaximum m).value = min (max sb.value (min sb.minimum m)) m := by
  simp only [QSpinBox.setMaximum, QSpinBox.setRange, QSpinBox.bound]
  split_ifs <;> omega

theorem QSpinBox.setMaximum_value_of_le (m : Int) (sb : QSpinBox)
    (h : sb.minimum ≤ sb.value) : (sb.setMaximum m).value = min sb.value m := by
  rw [QSpinBox.setMaximum_value]
  omega

theorem QSpinBox.setMaximum_setMaximum (m : Int) (sb : QSpinBox) :
    (sb.setMaximum m).setMaximum m = sb.setMaximum m := by
  simp only [QSpinBox.setMaximum, QSpinBox.setRange, QSpinBox.bound]
  split_ifs <;> rfl

/-! ### `calculate` -/

theorem calculate_of_invalid (env : Env QString) (fuel : Nat) (d : PitchDialog QString)
    (h : env.toDouble d.lineEdit_OG = none) : calculate env (fuel + 1) d = some d := by
  simp only [calculate, calculateBody, h]

theorem calculate_step (env : Env QString) (fuel : Nat) (d : PitchDialog QString)
    (og : Dbl) (h : env.toDouble d.lineEdit_OG = some og) :
    calculate env (fuel + 1) d =
      match (if (d.spinBox_VialsPitched.setMaximum (maximumOf env og d)).value
            = d.spinBox_VialsPitched.value
        then some { d with spinBox_VialsPitched :=
          (d.spinBox_VialsPitched.setMaximum (maximumOf env og d)) }
        else calculate env fuel { d with spinBox_VialsPitched :=
          (d.spinBox_VialsPitched.setMaximum (maximumOf env og d)) }) with
      | none => none
      | some d2 => some { d2 with
        lineEdit_cells := env.arg (cellsOf env og d / Dbl.fin 1e9) 0
        lineEdit_starterVol := env.displayAmount
          (starterOf env og { d with
            comboBox_AerationMethod := d2.comboBox_AerationMethod
            spinBox_Viability := d2.spinBox_Viability } d2.spinBox_VialsPitched.value)
          Units.liters
        lineEdit_yeast := env.displayAmount (cellsOf env og d / Dbl.fin 20e9) Units.grams
        lineEdit_vials := env.arg (vialsOf env og d) 1 } := by
  rw [calculate]
  simp only [calculateBody, h]
  rfl

theorem calculate_of_valid (env : Env QString) (fuel : Nat) (d : PitchDialog QString)
    (og : Dbl) (h : env.toDouble d.lineEdit_OG = some og) :
    calculate env (fuel + 2) d = some (calculated env og d) := by
  have hidem := QSpinBox.setMaximum_setMaximum (maximumOf env og d) d.spinBox_VialsPitched
  rw [calculate_step env (fuel + 1) d og h]
  by_cases hv : (d.spinBox_VialsPitched.setMaximum (maximumOf env og d)).value
      = d.spinBox_VialsPitched.value
  · rw [if_pos hv]
    rfl
  · have hs := calculate_step env fuel
      { d with spinBox_VialsPitched :=
          (QSpinBox.setMaximum d.spinBox_VialsPitched (maximumOf env og d)) } og h
    rw [if_neg hv, hs]
    have hm : maximumOf env og { d with spinBox_VialsPitched :=
        (d.spinBox_VialsPitched.setMaximum (maximumOf env og d)) }
        = maximumOf env og d := rfl
    simp only [hm, hidem, if_true]
    rfl

theorem calculate_of_le (env : Env QString) (fuel : Nat) (d : PitchDialog QString)
    (og : Dbl) (h : env.toDouble d.lineEdit_OG = some og) (hfuel : 2 ≤ fuel) :
    calculate env fuel d = some (calculated env og d) := by
  obtain ⟨n, rfl⟩ : ∃ n, fuel = n + 2 := ⟨fuel - 2, by omega⟩
  exact calculate_of_valid env n d og h

theorem calculate_frame (env : Env QString) (fuel : Nat) (d : PitchDialog QString)
    (hfuel : 2 ≤ fuel) :
    ∃ r, calculate env fuel d = some r ∧ r.spinBox_Viability = d.spinBox_Viability ∧
      r.dateEdit_ProductionDate = d.dateEdit_ProductionDate := by
  obtain ⟨n, rfl⟩ : ∃ n, fuel = n + 2 := ⟨fuel - 2, by omega⟩
  cases h : env.toDouble d.lineEdit_OG with
  | none => exact ⟨d, calculate_of_invalid env (n + 1) d h, rfl, rfl⟩
  | some og => exact ⟨_, calculate_of_valid env n d og h, rfl, rfl⟩

theorem calculated_calculated (env : Env QString) (og : Dbl) (d : PitchDialog QString) :
    calculated env og (calculated env og d) = calculated env og d := by
  have hidem := QSpinBox.setMaximum_setMaximum (maximumOf env og d) d.spinBox_VialsPitched
  simp only [calculated, starterOf, cellsOf, vialsOf, maximumOf, vialsDoubleOf] at hidem ⊢
  rw [hidem]

/-! ### Arithmetic on doubles -/

theorem Dbl.fin_add (a b : ℚ) : Dbl.fin a + Dbl.fin b = Dbl.fin (a + b) := rfl

theorem Dbl.fin_sub (a b : ℚ) : Dbl.fin a - Dbl.fin b = Dbl.fin (a - b) := by
  show Dbl.add (Dbl.fin a) (Dbl.neg (Dbl.fin b)) = _
  simp [Dbl.add, Dbl.neg, sub_eq_add_neg]

theorem Dbl.fin_mul (a b : ℚ) : Dbl.fin a * Dbl.fin b = Dbl.fin (a * b) := rfl

theorem Dbl.fin_div (a b : ℚ) (hb : b ≠ 0) : Dbl.fin a / Dbl.fin b = Dbl.fin (a / b) := by
  show Dbl.div (Dbl.fin a) (Dbl.fin b) = _
  simp [Dbl.div, hb]

theorem Dbl.fin_div_def (a b : ℚ) : Dbl.fin a / Dbl.fin b =
    if b = 0 then (if a = 0 then Dbl.nan else if 0 < a then Dbl.pinf else Dbl.ninf)
    else Dbl.fin (a / b) := rfl

theorem Dbl.div_def (x y : Dbl) : x / y = Dbl.div x y := rfl

theorem Dbl.mul_def (x y : Dbl) : x * y = Dbl.mul x y := rfl

theorem Dbl.pow_pinf_base (powPos : ℚ → ℚ → Dbl) :
    Dbl.pow powPos Dbl.pinf (Dbl.fin 2.18) = Dbl.pinf := by
  have h1 : (2.18 : ℚ) ≠ 0 := by norm_num
  have h2 : (0 : ℚ) < 2.18 := by norm_num
  simp [Dbl.pow, h1, h2]

/-! ### Rounding to binary64 -/

theorem Dbl.roundEven_cases (x : ℚ) :
    Dbl.roundEven x = ⌊x⌋ ∨ (Dbl.roundEven x = ⌊x⌋ + 1 ∧ 1 / 2 ≤ x - ⌊x⌋) := by
  unfold Dbl.roundEven
  split_ifs with h1 h2 h3
  · exact Or.inl rfl
  · exact Or.inr ⟨rfl, le_of_lt h2⟩
  · exact Or.inl rfl
  · exact Or.inr ⟨rfl, not_lt.mp h1⟩

theorem Dbl.abs_roundEven_sub_le (x : ℚ) : |(Dbl.roundEven x : ℚ) - x| ≤ 1 / 2 := by
  have h1 := Int.floor_le x
  have h2 := Int.lt_floor_add_one x
  unfold Dbl.roundEven
  split_ifs with h3 h4 h5 <;> rw [abs_le] <;> constructor <;> push_cast <;> linarith

theorem Dbl.roundEven_le_of_le (x : ℚ) (N : Int) (h : x ≤ N) : Dbl.roundEven x ≤ N := by
  have h1 := Int.floor_le x
  rcases Dbl.roundEven_cases x with hc | ⟨hc, hf⟩
  · rw [hc]
    exact_mod_cast le_trans h1 h
  · rw [hc]
    have h2 : (⌊x⌋ : ℚ) < N := by linarith
    have h3 : ⌊x⌋ < N := by exact_mod_cast h2
    omega

theorem Dbl.le_roundEven_of_le (x : ℚ) (N : Int) (h : (N : ℚ) ≤ x) : N ≤ Dbl.roundEven x := by
  have h1 : N ≤ ⌊x⌋ := Int.le_floor.mpr h
  rcases Dbl.roundEven_cases x with hc | ⟨hc, -⟩ <;> rw [hc] <;> omega

theorem Dbl.roundEven_eq_of_abs_lt (x : ℚ) (m : Int) (h : |x - m| < 1 / 2) :
    Dbl.roundEven x = m := by
  have h1 := Dbl.abs_roundEven_sub_le x
  have h2 : |(Dbl.roundEven x : ℚ) - m| < 1 := by
    have h3 : (Dbl.roundEven x : ℚ) - m = ((Dbl.roundEven x : ℚ) - x) + (x - m) := by ring
    rw [h3]
    exact lt_of_le_of_lt (abs_add _ _) (by linarith)
  have h4 : |((Dbl.roundEven x - m : Int) : ℚ)| < 1 := by
    push_cast
    exact h2
  have h5 : |Dbl.roundEven x - m| < 1 := by exact_mod_cast h4
  rw [abs_lt] at h5
  omega

theorem two_zpow_pos (k : Int) : (0 : ℚ) < 2 ^ k := zpow_pos (by norm_num) k

theorem Dbl.ulpExp_le (q : ℚ) (hq : q ≠ 0) (j : Int) (hj : -1022 ≤ j)
    (h : |q| < 2 ^ (j + 1)) : Dbl.ulpExp q ≤ j - 52 := by
  have hpos : 0 < |q| := abs_pos.mpr hq
  have hlog : Int.log 2 |q| < j + 1 :=
    (Int.lt_zpow_iff_log_lt (b := 2) (by norm_num) hpos (x := j + 1)).mp (by simpa using h)
  unfold Dbl.ulpExp
  omega

theorem Dbl.ulpExp_eq (q : ℚ) (j : Int) (hj : -1022 ≤ j) (hlo : 2 ^ j ≤ |q|)
    (hhi : |q| < 2 ^ (j + 1)) : Dbl.ulpExp q = j - 52 := by
  have hpos : 0 < |q| := lt_of_lt_of_le (two_zpow_pos j) hlo
  have hlog : Int.log 2 |q| < j + 1 :=
    (Int.lt_zpow_iff_log_lt (b := 2) (by norm_num) hpos (x := j + 1)).mp (by simpa using hhi)
  have hlog2 : j ≤ Int.log 2 |q| :=
    (Int.zpow_le_iff_le_log (b := 2) (by norm_num) hpos (x := j)).mp (by simpa using hlo)
  unfold Dbl.ulpExp
  omega

theorem dyadic_div (m k e : Int) (h : e ≤ k) :
    ((m : ℚ) * 2 ^ k) / 2 ^ e = ((m * 2 ^ (k - e).toNat : Int) : ℚ) := by
  have hk : k = e + ((k - e).toNat : Int) := by omega
  have h2 : (2 : ℚ) ^ k = 2 ^ e * 2 ^ (k - e).toNat := by
    conv_lhs => rw [hk]
    rw [zpow_add₀ (by norm_num), zpow_natCast]
  rw [h2]
  have := two_zpow_pos e
  push_cast
  field_simp
  ring

theorem Dbl.round64_of_ne_zero (q : ℚ) (h0 : q ≠ 0) (j : Int) (hj1 : -1022 ≤ j)
    (hj2 : j ≤ 1022) (hq : |q| < 2 ^ (j + 1)) :
    Dbl.round64 q = Dbl.fin (Dbl.roundEven (q / 2 ^ Dbl.ulpExp q) * 2 ^ Dbl.ulpExp q) ∧
    |(Dbl.roundEven (q / 2 ^ Dbl.ulpExp q) : ℚ) * 2 ^ Dbl.ulpExp q - q| ≤ 2 ^ (j - 53) := by
  have hue := Dbl.ulpExp_le q h0 j hj1 hq
  have hu := two_zpow_pos (Dbl.ulpExp q)
  have herr := Dbl.abs_roundEven_sub_le (q / 2 ^ Dbl.ulpExp q)
  have hule : (2 : ℚ) ^ Dbl.ulpExp q ≤ 2 ^ (j - 52) := zpow_le_zpow_right₀ (by norm_num) hue
  have hr_err : |(Dbl.roundEven (q / 2 ^ Dbl.ulpExp q) : ℚ) * 2 ^ Dbl.ulpExp q - q|
      ≤ 2 ^ (j - 53) := by
    have e1 : (Dbl.roundEven (q / 2 ^ Dbl.ulpExp q) : ℚ) * 2 ^ Dbl.ulpExp q - q
        = ((Dbl.roundEven (q / 2 ^ Dbl.ulpExp q) : ℚ) - q / 2 ^ Dbl.ulpExp q)
          * 2 ^ Dbl.ulpExp q := by
      field_simp
    rw [e1, abs_mul, abs_of_pos hu]
    have e2 : (2 : ℚ) ^ (j - 53) = 1 / 2 * 2 ^ (j - 52) := by
      have hz := zpow_add_one₀ (show (2 : ℚ) ≠ 0 by norm_num) (j - 53)
      rw [show j - 53 + 1 = j - 52 by omega] at hz
      rw [hz]
      ring
    rw [e2]
    exact mul_le_mul herr hule (le_of_lt hu) (by norm_num)
  have hsmall : (2 : ℚ) ^ (j - 53) ≤ 2 ^ (j + 1) :=
    zpow_le_zpow_right₀ (by norm_num) (by omega)
  have hbig : (2 : ℚ) ^ (j + 1) + 2 ^ (j + 1) ≤ 2 ^ (1024 : Int) := by
    have e3 : (2 : ℚ) ^ (j + 1) + 2 ^ (j + 1) = 2 ^ (j + 2) := by
      have hz := zpow_add_one₀ (show (2 : ℚ) ≠ 0 by norm_num) (j + 1)
      rw [show j + 1 + 1 = j + 2 by omega] at hz
      rw [hz]
      ring
    rw [e3]
    exact zpow_le_zpow_right₀ (by norm_num) (by omega)
  have hnov : ¬ (2 : ℚ) ^ (1024 : Int)
      ≤ |(Dbl.roundEven (q / 2 ^ Dbl.ulpExp q) : ℚ) * 2 ^ Dbl.ulpExp q| := by
    rw [not_le]
    have t1 : |(Dbl.roundEven (q / 2 ^ Dbl.ulpExp q) : ℚ) * 2 ^ Dbl.ulpExp q|
        ≤ |(Dbl.roundEven (q / 2 ^ Dbl.ulpExp q) : ℚ) * 2 ^ Dbl.ulpExp q - q| + |q| := by
      have := abs_add ((Dbl.roundEven (q / 2 ^ Dbl.ulpExp q) : ℚ) * 2 ^ Dbl.ulpExp q - q) q
      simpa using this
    linarith
  refine ⟨?_, hr_err⟩
  simp only [Dbl.round64, h0, if_false, hnov]

theorem Dbl.round64_spec (q : ℚ) (j : Int) (hj1 : -1022 ≤ j) (hj2 : j ≤ 1022)
    (hq : |q| < 2 ^ (j + 1)) :
    ∃ r : ℚ, Dbl.round64 q = Dbl.fin r ∧ |r - q| ≤ 2 ^ (j - 53) ∧
      (∀ m k : Int, j - 52 ≤ k → q ≤ (m : ℚ) * 2 ^ k → r ≤ (m : ℚ) * 2 ^ k) ∧
      (∀ m k : Int, j - 52 ≤ k → (m : ℚ) * 2 ^ k ≤ q → (m : ℚ) * 2 ^ k ≤ r) := by
  by_cases h0 : q = 0
  · subst h0
    refine ⟨0, by simp [Dbl.round64], ?_, fun m k _ h => h, fun m k _ h => h⟩
    simp only [sub_self, abs_zero]
    exact le_of_lt (two_zpow_pos _)
  obtain ⟨hfin, herr⟩ := Dbl.round64_of_ne_zero q h0 j hj1 hj2 hq
  have hue := Dbl.ulpExp_le q h0 j hj1 hq
  have hu := two_zpow_pos (Dbl.ulpExp q)
  refine ⟨_, hfin, herr, ?_, ?_⟩
  · intro m k hk hle
    have hek : Dbl.ulpExp q ≤ k := le_trans hue hk
    have hdiv := dyadic_div m k (Dbl.ulpExp q) hek
    have h1 : q / 2 ^ Dbl.ulpExp q ≤ ((m * 2 ^ (k - Dbl.ulpExp q).toNat : Int) : ℚ) := by
      rw [← hdiv]
      exact div_le_div_of_nonneg_right hle (le_of_lt hu)
    have h2 := Dbl.roundEven_le_of_le _ _ h1
    have h3 : (Dbl.roundEven (q / 2 ^ Dbl.ulpExp q) : ℚ)
        ≤ ((m * 2 ^ (k - Dbl.ulpExp q).toNat : Int) : ℚ) := by
      exact_mod_cast h2
    calc (Dbl.roundEven (q / 2 ^ Dbl.ulpExp q) : ℚ) * 2 ^ Dbl.ulpExp q
        ≤ ((m * 2 ^ (k - Dbl.ulpExp q).toNat : Int) : ℚ) * 2 ^ Dbl.ulpExp q :=
          mul_le_mul_of_nonneg_right h3 (le_of_lt hu)
      _ = (m : ℚ) * 2 ^ k := by
          rw [← hdiv]
          field_simp
  · intro m k hk hle
    have hek : Dbl.ulpExp q ≤ k := le_trans hue hk
    have hdiv := dyadic_div m k (Dbl.ulpExp q) hek
    have h1 : ((m * 2 ^ (k - Dbl.ulpExp q).toNat : Int) : ℚ) ≤ q / 2 ^ Dbl.ulpExp q := by
      rw [← hdiv]
      exact div_le_div_of_nonneg_right hle (le_of_lt hu)
    have h2 := Dbl.le_roundEven_of_le _ _ h1
    have h3 : ((m * 2 ^ (k - Dbl.ulpExp q).toNat : Int) : ℚ)
        ≤ (Dbl.roundEven (q / 2 ^ Dbl.ulpExp q) : ℚ) := by
      exact_mod_cast h2
    calc (m : ℚ) * 2 ^ k
        = ((m * 2 ^ (k - Dbl.ulpExp q).toNat : Int) : ℚ) * 2 ^ Dbl.ulpExp q := by
          rw [← hdiv]
          field_simp
      _ ≤ (Dbl.roundEven (q / 2 ^ Dbl.ulpExp q) : ℚ) * 2 ^ Dbl.ulpExp q :=
          mul_le_mul_of_nonneg_right h3 (le_of_lt hu)

/-- A binary64 number rounds to itself. -/
theorem Dbl.round64_dyadic (q : ℚ) (m k : Int) (hq : q = (m : ℚ) * 2 ^ k)
    (hm : |m| < 9007199254740992) (hk1 : -1074 ≤ k) (hk2 : k ≤ 970) :
    Dbl.round64 q = Dbl.fin q := by
  have hbound : |q| < 2 ^ (k + 52 + 1) := by
    rw [hq, abs_mul, abs_of_pos (two_zpow_pos k)]
    have h1 : (2 : ℚ) ^ (k + 52 + 1) = 9007199254740992 * 2 ^ k := by
      rw [show k + 52 + 1 = k + 53 by omega, zpow_add₀ (by norm_num)]
      norm_num
      ring
    rw [h1]
    have h2 : |(m : ℚ)| < 9007199254740992 := by exact_mod_cast hm
    exact mul_lt_mul_of_pos_right h2 (two_zpow_pos k)
  obtain ⟨r, hr, -, hle, hge⟩ := Dbl.round64_spec q (k + 52) (by omega) (by omega) hbound
  have h1 := hle m k (by omega) (le_of_eq hq)
  have h2 := hge m k (by omega) (le_of_eq hq.symm)
  rw [hr, hq]
  exact congrArg Dbl.fin (le_antisymm h1 h2)

theorem Dbl.rnd_dyadic (q : ℚ) (m k : Int) (hq : q = (m : ℚ) * 2 ^ k)
    (hm : |m| < 9007199254740992) (hk1 : -1074 ≤ k) (hk2 : k ≤ 970) :
    Dbl.rnd (Dbl.fin q) = Dbl.fin q :=
  Dbl.round64_dyadic q m k hq hm hk1 hk2

/-- The binary64 number nearest to `q`, from the integer nearest to `q` in
units of the last place. -/
theorem Dbl.round64_eq (q : ℚ) (j m : Int) (hj1 : -1022 ≤ j) (hj2 : j ≤ 1022)
    (hlo : 2 ^ j ≤ |q|) (hhi : |q| < 2 ^ (j + 1))
    (hm : |q / 2 ^ (j - 52) - m| < 1 / 2) :
    Dbl.round64 q = Dbl.fin ((m : ℚ) * 2 ^ (j - 52)) := by
  have h0 : q ≠ 0 := by
    intro h
    rw [h, abs_zero] at hlo
    exact absurd hlo (not_le.mpr (two_zpow_pos j))
  obtain ⟨hfin, -⟩ := Dbl.round64_of_ne_zero q h0 j hj1 hj2 hhi
  have hue := Dbl.ulpExp_eq q j hj1 hlo hhi
  rw [hfin, hue, Dbl.roundEven_eq_of_abs_lt _ m hm]

theorem Dbl.lit_seven_tenths :
    Dbl.lit 0.7 = Dbl.fin (3152519739159347 / 4503599627370496) := by
  have h := Dbl.round64_eq 0.7 (-1) 6305039478318694 (by norm_num) (by norm_num)
    (by norm_num [abs_of_pos]) (by norm_num [abs_of_pos])
    (by rw [abs_lt]; constructor <;> norm_num)
  rw [Dbl.lit, h]
  congr 1
  norm_num

/-- The double `97 - 0.7 * days`: within a tenth of the exact value, and not
below it when `days` is a multiple of 10. -/
theorem viability_double (days : Int) (h0 : 0 ≤ days) (h1 : days ≤ 2147483647) :
    ∃ s : ℚ, Dbl.rnd (Dbl.fin 97 - Dbl.rnd (Dbl.lit 0.7 * Dbl.ofInt days)) = Dbl.fin s ∧
      |s - ((970 - 7 * days : Int) : ℚ) / 10| < 1 / 10 ∧
      (days % 10 = 0 → ((970 - 7 * days : Int) : ℚ) / 10 ≤ s) := by
  have hd0 : (0 : ℚ) ≤ days := by exact_mod_cast h0
  have hd1 : (days : ℚ) ≤ 2147483647 := by exact_mod_cast h1
  have e31 : (2 : ℚ) ^ ((30 : Int) + 1) = 2147483648 := by norm_num
  have e23 : (2 : ℚ) ^ ((30 : Int) - 53) = 1 / 8388608 := by norm_num
  rw [Dbl.lit_seven_tenths, Dbl.ofInt, Dbl.fin_mul]
  have hx0 : (0 : ℚ) ≤ 3152519739159347 / 4503599627370496 * days := by positivity
  have hxd : (3152519739159347 / 4503599627370496 : ℚ) * days ≤ days := by
    nlinarith
  obtain ⟨p, hp, hperr, hple, hpge⟩ :=
    Dbl.round64_spec (3152519739159347 / 4503599627370496 * days) 30 (by norm_num)
      (by norm_num) (by rw [abs_of_nonneg hx0, e31]; linarith)
  rw [e23] at hperr
  have hp0 : 0 ≤ p := by
    have := hpge 0 0 (by norm_num) (by simpa using hx0)
    simpa using this
  have hpd : p ≤ days := by
    have := hple days 0 (by norm_num) (by simpa using hxd)
    simpa using this
  have hrnd1 : Dbl.rnd (Dbl.fin (3152519739159347 / 4503599627370496 * days)) = Dbl.fin p := hp
  rw [hrnd1, Dbl.fin_sub]
  obtain ⟨s, hs, hserr, hsle, hsge⟩ :=
    Dbl.round64_spec (97 - p) 30 (by norm_num) (by norm_num)
      (by rw [abs_lt, e31]; constructor <;> linarith)
  rw [e23] at hserr
  refine ⟨s, hs, ?_, ?_⟩
  · have hc : |(3152519739159347 / 4503599627370496 : ℚ) * days - 7 / 10 * days|
        ≤ 1 / 8388608 := by
      rw [abs_le]
      constructor <;> nlinarith
    rw [abs_le] at hperr hserr hc
    rw [abs_lt]
    push_cast
    constructor <;> linarith [hperr.1, hperr.2, hserr.1, hserr.2, hc.1, hc.2]
  · intro hmod
    obtain ⟨k, hk⟩ : ∃ k : Int, days = 10 * k := ⟨days / 10, by omega⟩
    have hkq : (days : ℚ) = 10 * k := by exact_mod_cast hk
    have hx7 : (3152519739159347 / 4503599627370496 : ℚ) * days ≤ ((7 * k : Int) : ℚ) := by
      push_cast
      rw [hkq]
      have hk0 : (0 : ℚ) ≤ k := by
        have : (0 : ℚ) ≤ 10 * k := hkq ▸ hd0
        linarith
      nlinarith
    have hp7 : p ≤ ((7 * k : Int) : ℚ) := by
      have := hple (7 * k) 0 (by norm_num) (by simpa using hx7)
      simpa using this
    have hs7 : ((97 - 7 * k : Int) : ℚ) ≤ s := by
      have := hsge (97 - 7 * k) 0 (by norm_num)
        (by push_cast at hp7 ⊢; simp only [zpow_zero, mul_one]; linarith)
      simpa using this
    have he : ((970 - 7 * days : Int) : ℚ) / 10 = ((97 - 7 * k : Int) : ℚ) := by
      push_cast
      rw [hkq]
      ring
    rw [he]
    exact hs7

theorem toInt_viability (out : Dbl → Int) (days : Int) (h0 : 0 ≤ days)
    (h1 : days ≤ 2147483647) :
    Dbl.toInt out (Dbl.rnd (Dbl.fin 97 - Dbl.rnd (Dbl.lit 0.7 * Dbl.ofInt days)))
        = (970 - 7 * days).tdiv 10 ∨
      (Dbl.toInt out (Dbl.rnd (Dbl.fin 97 - Dbl.rnd (Dbl.lit 0.7 * Dbl.ofInt days)))
        = (970 - 7 * days).tdiv 10 + 1 ∧ days % 10 = 0 ∧ 970 < 7 * days) := by
  obtain ⟨s, hs, herr, hge⟩ := viability_double days h0 h1
  rw [hs]
  have htdiv : (970 - 7 * days).tdiv 10
      = if 0 ≤ 970 - 7 * days then (970 - 7 * days) / 10 else -((-(970 - 7 * days)) / 10) := by
    split_ifs with hN
    · exact Int.tdiv_eq_ediv hN (by decide)
    · have hneg : (970 - 7 * days).tdiv 10 = -((-(970 - 7 * days)).tdiv 10) := by
        rw [Int.neg_tdiv, neg_neg]
      rw [hneg, Int.tdiv_eq_ediv (by omega) (by decide)]
  have hNq : ((970 - 7 * days : Int) : ℚ)
      = 10 * (((970 - 7 * days) / 10 : Int) : ℚ) + (((970 - 7 * days) % 10 : Int) : ℚ) := by
    have := Int.emod_add_ediv (970 - 7 * days) 10
    exact_mod_cast (by omega : 970 - 7 * days
      = 10 * ((970 - 7 * days) / 10) + (970 - 7 * days) % 10)
  have hrem0 : (0 : ℚ) ≤ (((970 - 7 * days) % 10 : Int) : ℚ) := by
    exact_mod_cast Int.emod_nonneg _ (by decide)
  have hrem9 : (((970 - 7 * days) % 10 : Int) : ℚ) ≤ 9 := by
    exact_mod_cast (by omega : (970 - 7 * days) % 10 ≤ 9)
  rw [abs_lt] at herr
  simp only [Dbl.toInt]
  by_cases hmod : days % 10 = 0
  · have hrem : (970 - 7 * days) % 10 = 0 := by omega
    have hremq : (((970 - 7 * days) % 10 : Int) : ℚ) = 0 := by exact_mod_cast hrem
    have hsn := hge hmod
    by_cases hN : 0 ≤ 970 - 7 * days
    · have hn0 : (0 : ℚ) ≤ (((970 - 7 * days) / 10 : Int) : ℚ) := by
        exact_mod_cast (by omega : 0 ≤ (970 - 7 * days) / 10)
      have hs0 : 0 ≤ s := by linarith
      have hfl : ⌊s⌋ = (970 - 7 * days) / 10 := by
        rw [Int.floor_eq_iff]
        constructor <;> linarith
      left
      rw [if_pos hs0, hfl, htdiv, if_pos hN, if_pos (by omega)]
    · have hn1 : (((970 - 7 * days) / 10 : Int) : ℚ) ≤ -1 := by
        exact_mod_cast (by omega : (970 - 7 * days) / 10 ≤ -1)
      have hs0 : ¬ 0 ≤ s := by
        rw [not_le]
        linarith
      rw [if_neg hs0]
      by_cases hseq : s = (((970 - 7 * days) / 10 : Int) : ℚ)
      · left
        have hc : ⌈s⌉ = (970 - 7 * days) / 10 := by
          rw [hseq, Int.ceil_intCast]
        rw [hc, htdiv, if_neg hN, if_pos (by omega)]
        omega
      · right
        have hlt : (((970 - 7 * days) / 10 : Int) : ℚ) < s :=
          lt_of_le_of_ne (by linarith) (Ne.symm hseq)
        have hc : ⌈s⌉ = (970 - 7 * days) / 10 + 1 := by
          rw [Int.ceil_eq_iff]
          push_cast
          constructor <;> linarith
        rw [hc, htdiv, if_neg hN, if_pos (by omega)]
        refine ⟨by omega, hmod, by omega⟩
  · left
    have hrem1 : (1 : ℚ) ≤ (((970 - 7 * days) % 10 : Int) : ℚ) := by
      exact_mod_cast (by omega : 1 ≤ (970 - 7 * days) % 10)
    by_cases hN : 0 ≤ 970 - 7 * days
    · have hn0 : (0 : ℚ) ≤ (((970 - 7 * days) / 10 : Int) : ℚ) := by
        exact_mod_cast (by omega : 0 ≤ (970 - 7 * days) / 10)
      have hs0 : 0 ≤ s := by linarith
      have hfl : ⌊s⌋ = (970 - 7 * days) / 10 := by
        rw [Int.floor_eq_iff]
        constructor <;> linarith
      rw [if_pos hs0, hfl, htdiv, if_pos hN, if_pos (by omega)]
    · have hn1 : (((970 - 7 * days) / 10 : Int) : ℚ) + 1 ≤ 0 := by
        exact_mod_cast (by omega : (970 - 7 * days) / 10 + 1 ≤ 0)
      have hs0 : ¬ 0 ≤ s := by
        rw [not_le]
        linarith
      have hc : ⌈s⌉ = (970 - 7 * days) / 10 + 1 := by
        rw [Int.ceil_eq_iff]
        push_cast
        constructor <;> linarith
      have hremI : 1 ≤ (970 - 7 * days) % 10 := by omega
      rw [if_neg hs0, hc, htdiv, if_neg hN, if_pos (by omega)]
      omega

theorem ternary_eq_max (v : ℚ) :
    (if Dbl.lt (Dbl.fin v) (Dbl.fin 1) then Dbl.fin 1 else Dbl.floor (Dbl.fin v))
      = Dbl.fin ((max 1 ⌊v⌋ : Int) : ℚ) := by
  simp only [Dbl.lt, Dbl.floor, decide_eq_true_eq]
  split_ifs with h
  · have : ⌊v⌋ < 1 := Int.floor_lt.mpr (by exact_mod_cast h)
    rw [max_eq_left (by omega)]
    norm_num
  · have : 1 ≤ ⌊v⌋ := Int.le_floor.mpr (by exact_mod_cast not_lt.mp h)
    rw [max_eq_right this]

theorem rate_eq_specRate (percent : Int) :
    (Dbl.fin 2 - Dbl.fin 0.75) * Dbl.ofInt percent / Dbl.fin 100.0 + Dbl.fin 0.75
      = specRate percent := by
  rw [Dbl.ofInt, Dbl.fin_sub, Dbl.fin_mul, Dbl.fin_div _ _ (by norm_num), Dbl.fin_add, specRate]
  congr 1
  ring

theorem cellsOf_eq_spec (env : Env QString) (og : Dbl) (d : PitchDialog QString) :
    cellsOf env og d = specCellsOf env og d := by
  rw [cellsOf, rate_eq_specRate]
  rfl

theorem maximumOf_of_finite (env : Env QString) (og : Dbl)
    (d : PitchDialog QString) (v : ℚ) (hv : vialsDoubleOf env og d = Dbl.fin v)
    (hfit : ⌊v⌋ ≤ 2147483647) : maximumOf env og d = max 1 ⌊v⌋ := by
  rw [maximumOf, hv, ternary_eq_max]
  simp only [Dbl.toInt]
  have h1 : (0 : ℚ) ≤ ((max 1 ⌊v⌋ : Int) : ℚ) := by
    have : (0 : Int) ≤ max 1 ⌊v⌋ := by omega
    exact_mod_cast this
  rw [if_pos h1, Int.floor_intCast, if_pos (by omega)]

theorem updateViabilityFromDate_frame (env : Env QString) (fuel : Nat) (date : Int)
    (d : PitchDialog QString) (hfuel : 2 ≤ fuel) :
    ∃ r, updateViabilityFromDate env fuel date d = some r ∧
      r.spinBox_Viability = d.spinBox_Viability.setValue
        (Dbl.toInt env.intOutOfRange
          (Dbl.rnd (Dbl.fin 97
            - Dbl.rnd (Dbl.lit 0.7 * Dbl.ofInt (env.currentDate - date))))) ∧
      r.dateEdit_ProductionDate = d.dateEdit_ProductionDate := by
  simp only [updateViabilityFromDate]
  split_ifs with hv
  · exact ⟨_, rfl, rfl, rfl⟩
  · exact calculate_frame env fuel _ hfuel

theorem updateViabilityFromDate_value (env : Env QString) (fuel : Nat) (date : Int)
    (d : PitchDialog QString) (hfuel : 2 ≤ fuel) (h0 : 0 ≤ env.currentDate - date)
    (h1 : env.currentDate - date ≤ 2147483647) :
    ∃ r t, updateViabilityFromDate env fuel date d = some r ∧
      r.spinBox_Viability.value =
        min (max t d.spinBox_Viability.minimum) d.spinBox_Viability.maximum ∧
      (t = (970 - 7 * (env.currentDate - date)).tdiv 10 ∨
        (t = (970 - 7 * (env.currentDate - date)).tdiv 10 + 1 ∧
          (env.currentDate - date) % 10 = 0 ∧ 970 < 7 * (env.currentDate - date))) := by
  obtain ⟨r, hr, hsb, -⟩ := updateViabilityFromDate_frame env fuel date d hfuel
  refine ⟨r, _, hr, ?_, toInt_viability env.intOutOfRange _ h0 h1⟩
  rw [hsb]
  exact QSpinBox.bound_eq_min_max _ _

theorem toInt_viability_170 (out : Dbl → Int) :
    Dbl.toInt out (Dbl.rnd (Dbl.fin 97 - Dbl.rnd (Dbl.lit 0.7 * Dbl.ofInt 170))) = -21 := by
  have hp : Dbl.rnd (Dbl.lit 0.7 * Dbl.ofInt 170)
      = Dbl.fin (8373880557142015 / 70368744177664) := by
    rw [Dbl.lit_seven_tenths, Dbl.ofInt, Dbl.fin_mul]
    have h := Dbl.round64_eq (3152519739159347 / 4503599627370496 * ((170 : Int) : ℚ)) 6
      8373880557142015 (by norm_num) (by norm_num)
      (by norm_num [abs_of_pos]) (by norm_num [abs_of_pos])
      (by rw [abs_lt]; constructor <;> norm_num)
    show Dbl.round64 _ = _
    rw [h]
    congr 1
    norm_num
  have hs : Dbl.rnd (Dbl.fin 97 - Dbl.fin (8373880557142015 / 70368744177664))
      = Dbl.fin (-1548112371908607 / 70368744177664) := by
    rw [Dbl.fin_sub, show (97 : ℚ) - 8373880557142015 / 70368744177664
      = -1548112371908607 / 70368744177664 by norm_num]
    exact Dbl.rnd_dyadic _ (-1548112371908607) (-46) (by norm_num) (by norm_num)
      (by norm_num) (by norm_num)
  rw [hp, hs]
  simp only [Dbl.toInt]
  have hneg : ¬ (0 : ℚ) ≤ -1548112371908607 / 70368744177664 := by norm_num
  have hc : ⌈(-1548112371908607 / 70368744177664 : ℚ)⌉ = -21 := by
    rw [Int.ceil_eq_iff]
    constructor <;> norm_num
  rw [if_neg hneg, hc, if_pos (by decide)]

/-! ### The reference environment -/

theorem ref_parse_og : refEnv.toDouble refDialog.lineEdit_OG = some (Dbl.fin (21/20)) := by
  have h : parseDecimal "1.050" = some (1050, 3) := by decide
  simp only [refEnv, refDialog, Text.toDouble, h]
  norm_num

theorem ref_parse_vol : refEnv.volQStringToSI refDialog.lineEdit_vol = Dbl.fin 5 := by
  have h : parseDecimal "5" = some (5, 0) := by decide
  simp only [refEnv, refDialog, Text.toDouble, h]
  norm_num

theorem ref_cells :
    specCellsOf refEnv (Dbl.fin (21/20)) refDialog = Dbl.fin (681320591875/8) := by
  rw [specCellsOf, ref_parse_vol]
  simp only [refEnv, refDialog, specTotalCells, specRate, Dbl.fin_mul, Dbl.fin_add]
  norm_num

theorem ref_vialsOf :
    vialsOf refEnv (Dbl.fin (21/20)) refDialog = Dbl.fin (681320591875/8 / 95000000000) := by
  rw [vialsOf, cellsOf_eq_spec, ref_cells]
  norm_num [refDialog, Dbl.ofInt, Dbl.fin_mul, Dbl.fin_div_def]

theorem ref_plato :
    refEnv.SG_20C20C_toPlato (Dbl.fin (21/20)) = Dbl.fin (99101177/8000000) := by
  simp only [refEnv, Dbl.fin_mul, Dbl.fin_add]
  norm_num

theorem ref_rate_double (p : Int) (hp : p = 50) :
    Dbl.rnd (Dbl.rnd (Dbl.rnd (Dbl.rnd (Dbl.rnd (Dbl.fin 2 - Dbl.fin 0.75) * Dbl.ofInt p)
      / Dbl.fin 100.0) + Dbl.fin 0.75) * Dbl.fin 1e6) = Dbl.fin 1375000 := by
  subst hp
  have h1 : Dbl.rnd (Dbl.fin 2 - Dbl.fin 0.75) = Dbl.fin 1.25 := by
    rw [Dbl.fin_sub, show (2 : ℚ) - 0.75 = 1.25 by norm_num]
    exact Dbl.rnd_dyadic 1.25 5 (-2) (by norm_num) (by norm_num) (by norm_num) (by norm_num)
  have h2 : Dbl.rnd (Dbl.fin 1.25 * Dbl.ofInt 50) = Dbl.fin 62.5 := by
    rw [Dbl.ofInt, Dbl.fin_mul, show (1.25 : ℚ) * ((50 : Int) : ℚ) = 62.5 by norm_num]
    exact Dbl.rnd_dyadic 62.5 125 (-1) (by norm_num) (by norm_num) (by norm_num) (by norm_num)
  have h3 : Dbl.rnd (Dbl.fin 62.5 / Dbl.fin 100.0) = Dbl.fin 0.625 := by
    rw [Dbl.fin_div _ _ (by norm_num), show (62.5 : ℚ) / 100.0 = 0.625 by norm_num]
    exact Dbl.rnd_dyadic 0.625 5 (-3) (by norm_num) (by norm_num) (by norm_num) (by norm_num)
  have h4 : Dbl.rnd (Dbl.fin 0.625 + Dbl.fin 0.75) = Dbl.fin 1.375 := by
    rw [Dbl.fin_add, show (0.625 : ℚ) + 0.75 = 1.375 by norm_num]
    exact Dbl.rnd_dyadic 1.375 11 (-3) (by norm_num) (by norm_num) (by norm_num) (by norm_num)
  have h5 : Dbl.rnd (Dbl.fin 1.375 * Dbl.fin 1e6) = Dbl.fin 1375000 := by
    rw [Dbl.fin_mul, show (1.375 : ℚ) * 1e6 = 1375000 by norm_num]
    exact Dbl.rnd_dyadic 1375000 1375000 0 (by norm_num) (by norm_num) (by norm_num)
      (by norm_num)
  rw [h1, h2, h3, h4, h5]

theorem rnd_zero : Dbl.rnd (Dbl.fin 0) = Dbl.fin 0 := by
  simp [Dbl.rnd, Dbl.round64]

theorem ref_divisor_double :
    Dbl.rnd (Dbl.ofInt 95 * Dbl.fin 1e9) = Dbl.fin 95000000000 := by
  rw [Dbl.ofInt, Dbl.fin_mul, show ((95 : Int) : ℚ) * 1e9 = 95000000000 by norm_num]
  exact Dbl.rnd_dyadic 95000000000 95000000000 0 (by norm_num) (by norm_num) (by norm_num)
    (by norm_num)

theorem refOther_parse_og :
    refEnv.toDouble refDialogOther.lineEdit_OG = some (Dbl.fin (21/20)) := ref_parse_og

theorem refVolAbc_parse_og :
    refEnv.toDouble refDialogVolAbc.lineEdit_OG = some (Dbl.fin (21/20)) := ref_parse_og

theorem refVolAbc_calculated :
    calculated refEnv (Dbl.fin (21/20)) refDialogVolAbc =
      { refDialogVolAbc with
        spinBox_VialsPitched := { minimum := 0, maximum := 1, value := 1, enabled := true }
        lineEdit_cells := Text.fixed (Dbl.fin 0) 0
        lineEdit_starterVol := Text.amount (Dbl.fin 0) Units.liters
        lineEdit_yeast := Text.amount (Dbl.fin 0) Units.grams
        lineEdit_vials := Text.fixed (Dbl.fin 0) 1 } := by
  have hvol : refEnv.volQStringToSI refDialogVolAbc.lineEdit_vol = Dbl.fin 0 := rfl
  have hcells : cellsOf refEnv (Dbl.fin (21/20)) refDialogVolAbc = Dbl.fin 0 := by
    rw [cellsOf, hvol]
    norm_num [refEnv, refDialogVolAbc, refDialog, Dbl.fin_mul, Dbl.fin_add, Dbl.fin_sub,
      Dbl.fin_div_def, Dbl.ofInt]
  have hvials : vialsOf refEnv (Dbl.fin (21/20)) refDialogVolAbc = Dbl.fin 0 := by
    rw [vialsOf, hcells]
    norm_num [refDialogVolAbc, refDialog, Dbl.fin_mul, Dbl.fin_div_def, Dbl.ofInt]
  have hmax : maximumOf refEnv (Dbl.fin (21/20)) refDialogVolAbc = 1 := by
    have hrate := ref_rate_double refDialogVolAbc.slider_pitchRate rfl
    have hz1 : Dbl.rnd (Dbl.fin 0 * Dbl.fin 1e3) = Dbl.fin 0 := by
      rw [Dbl.fin_mul, zero_mul]
      exact rnd_zero
    have hz2 : Dbl.rnd (Dbl.fin 1375000 * Dbl.fin 0) = Dbl.fin 0 := by
      rw [Dbl.fin_mul, mul_zero]
      exact rnd_zero
    have hz3 : Dbl.rnd (Dbl.fin 0 * Dbl.fin (99101177/8000000)) = Dbl.fin 0 := by
      rw [Dbl.fin_mul, zero_mul]
      exact rnd_zero
    have hviab : refDialogVolAbc.spinBox_Viability.value = 95 := rfl
    have hz4 : Dbl.rnd (Dbl.fin 0 / Dbl.fin 95000000000) = Dbl.fin 0 := by
      rw [Dbl.fin_div _ _ (by norm_num), zero_div]
      exact rnd_zero
    have hvd : vialsDoubleOf refEnv (Dbl.fin (21/20)) refDialogVolAbc = Dbl.fin 0 := by
      simp only [vialsDoubleOf, hvol, hrate, ref_plato, hz1, hz2, hz3, hviab,
        ref_divisor_double, hz4]
    rw [maximumOf_of_finite _ _ _ 0 hvd (by norm_num)]
    norm_num
  have hsb : QSpinBox.setMaximum refDialogVolAbc.spinBox_VialsPitched 1
      = { minimum := 0, maximum := 1, value := 1, enabled := true } := by decide
  have hstarter : starterOf refEnv (Dbl.fin (21/20)) refDialogVolAbc 1 = Dbl.fin 0 := by
    have h95 : imul 1 refDialogVolAbc.spinBox_Viability.value = 95 := by decide
    have hg : Dbl.fin 0 / Dbl.fin 1e9 / Dbl.ofInt 95 = Dbl.fin 0 := by
      norm_num [Dbl.ofInt, Dbl.fin_div_def]
    have hi : Dbl.fin 12.522 / Dbl.fin 0 = Dbl.pinf := by
      norm_num [Dbl.fin_div_def]
    simp only [starterOf, hcells, h95, hg, hi, Dbl.pow_pinf_base]
    simp [refDialogVolAbc, refDialog, Dbl.div_def, Dbl.mul_def, Dbl.div, Dbl.mul, Dbl.ofInt]
  simp only [calculated, hmax, hsb, hstarter, hcells, hvials]
  norm_num [refEnv, refDialogVolAbc, refDialog, Dbl.fin_div_def]

end Lemmas

/-! ## The claims -/

section Claims

variable {QString : Type}

/-- C2: when the gravity text parses to `og`, `calculate` returns and the
texts it publishes are the renderings of `totalCells/1e9` (cells, in
billions), of `vialsNeededNoStarter = totalCells / (viabilityPercent × 1e9)`
and of `dryYeastGrams = totalCells / 20e9`, where
`totalCells = rate × 1e6 × (volumeLiters × 1e3) × plato`,
`rate = 0.75 + 1.25 × pitchRatePercent/100` and `plato` is the conversion of
the gravity. -/
theorem calculate_publishes_cells_vials_yeast (env : Env QString) (fuel : Nat)
    (d : PitchDialog QString) (og : Dbl) (hfuel : 2 ≤ fuel)
    (h : env.toDouble d.lineEdit_OG = some og) :
    ∃ r, calculate env fuel d = some r ∧
      r.lineEdit_cells =
        env.arg (specTotalCells (specRate d.slider_pitchRate)
          (env.volQStringToSI d.lineEdit_vol) (env.SG_20C20C_toPlato og) / Dbl.fin 1e9) 0 ∧
      r.lineEdit_vials =
        env.arg (specVialsNeededNoStarter (specTotalCells (specRate d.slider_pitchRate)
          (env.volQStringToSI d.lineEdit_vol) (env.SG_20C20C_toPlato og))
          d.spinBox_Viability.value) 1 ∧
      r.lineEdit_yeast =
        env.displayAmount (specDryYeastGrams (specTotalCells (specRate d.slider_pitchRate)
          (env.volQStringToSI d.lineEdit_vol) (env.SG_20C20C_toPlato og))) Units.grams := by
  refine ⟨_, calculate_of_le env fuel d og h hfuel, ?_, ?_, ?_⟩
  · show env.arg (cellsOf env og d / Dbl.fin 1e9) 0 = _
    rw [cellsOf_eq_spec]; rfl
  · show env.arg (vialsOf env og d) 1 = _
    rw [vialsOf, cellsOf_eq_spec]; rfl
  · show env.displayAmount (cellsOf env og d / Dbl.fin 20e9) Units.grams = _
    rw [cellsOf_eq_spec]; rfl

/-- C2, at the reference dialog: gravity 1.050, 5 liters, slider at 50 and
viability 95 give 85.165073984375 billion cells. -/
theorem calculate_publishes_cells_vials_yeast_witness :
    refEnv.toDouble refDialog.lineEdit_OG = some (Dbl.fin (21/20)) ∧
    ∃ r, calculate refEnv 2 refDialog = some r ∧
      r.lineEdit_cells = Text.fixed (Dbl.fin 85.165073984375) 0 := by
  refine ⟨ref_parse_og, ?_⟩
  obtain ⟨r, hr, hcells, -, -⟩ :=
    calculate_publishes_cells_vials_yeast refEnv 2 refDialog (Dbl.fin (21/20)) (by decide)
      ref_parse_og
  refine ⟨r, hr, ?_⟩
  rw [hcells]
  have h := ref_cells
  rw [specCellsOf] at h
  rw [h]
  norm_num [refEnv, Dbl.fin_div_def]

/-- C3: when the gravity text does not parse as a number, `calculate` returns
and leaves the whole dialog as it was: the four output fields keep their texts
and the maximum and value of the vials-pitched spin box are not modified. -/
theorem calculate_invalid_gravity_unchanged (env : Env QString) (fuel : Nat)
    (d : PitchDialog QString) (hfuel : 1 ≤ fuel) (h : env.toDouble d.lineEdit_OG = none) :
    calculate env fuel d = some d := by
  obtain ⟨n, rfl⟩ : ∃ n, fuel = n + 1 := ⟨fuel - 1, by omega⟩
  exact calculate_of_invalid env n d h

/-- C3, at the gravity text "abc" in the reference environment. -/
theorem calculate_invalid_gravity_unchanged_witness :
    refEnv.toDouble (Text.typed "abc") = none ∧
    calculate refEnv 1 { refDialog with lineEdit_OG := Text.typed "abc" }
      = some { refDialog with lineEdit_OG := Text.typed "abc" } :=
  ⟨rfl, calculate_invalid_gravity_unchanged refEnv 1
    { refDialog with lineEdit_OG := Text.typed "abc" } (by decide) rfl⟩

/-- C4 (as stated, refuted): with the volume text "abc", which is no number,
and the gravity text 1.050, `calculate` does not abort: it overwrites the
four output fields (with the renderings of 0) and lowers the maximum and the
value of the vials-pitched spin box. -/
theorem calculate_invalid_volume_counterexample :
    Text.toDouble refDialogVolAbc.lineEdit_vol = none ∧
    refEnv.toDouble refDialogVolAbc.lineEdit_OG = some (Dbl.fin (21/20)) ∧
    ∃ r, calculate refEnv 2 refDialogVolAbc = some r ∧
      r.lineEdit_cells = Text.fixed (Dbl.fin 0) 0 ∧
      r.lineEdit_cells ≠ refDialogVolAbc.lineEdit_cells ∧
      r.lineEdit_starterVol ≠ refDialogVolAbc.lineEdit_starterVol ∧
      r.lineEdit_yeast ≠ refDialogVolAbc.lineEdit_yeast ∧
      r.lineEdit_vials ≠ refDialogVolAbc.lineEdit_vials ∧
      r.spinBox_VialsPitched.value ≠ refDialogVolAbc.spinBox_VialsPitched.value := by
  refine ⟨rfl, refVolAbc_parse_og, _,
    calculate_of_valid refEnv 0 refDialogVolAbc _ refVolAbc_parse_og, ?_, ?_, ?_, ?_, ?_, ?_⟩ <;>
  rw [refVolAbc_calculated] <;> simp [refDialogVolAbc, refDialog]

/-- C4 (amended): `calculate` aborts, leaving the dialog as it was, exactly
when the gravity text does not parse.  The volume text is never checked: when
the gravity text parses, whatever the volume text is, `calculate` goes on with
the number `Brewtarget::volQStringToSI` returns for it and overwrites the four
output fields with the renderings of the values computed from that number. -/
theorem calculate_aborts_on_gravity_only (env : Env QString) (fuel : Nat)
    (d : PitchDialog QString) (hfuel : 2 ≤ fuel) :
    (env.toDouble d.lineEdit_OG = none → calculate env fuel d = some d) ∧
    (∀ og, env.toDouble d.lineEdit_OG = some og →
      ∃ r, calculate env fuel d = some r ∧
        r.lineEdit_cells =
          env.arg (specTotalCells (specRate d.slider_pitchRate)
            (env.volQStringToSI d.lineEdit_vol) (env.SG_20C20C_toPlato og) / Dbl.fin 1e9) 0 ∧
        r.lineEdit_starterVol =
          env.displayAmount (starterOf env og d r.spinBox_VialsPitched.value) Units.liters ∧
        r.lineEdit_yeast =
          env.displayAmount (specDryYeastGrams (specTotalCells (specRate d.slider_pitchRate)
            (env.volQStringToSI d.lineEdit_vol) (env.SG_20C20C_toPlato og))) Units.grams ∧
        r.lineEdit_vials =
          env.arg (specVialsNeededNoStarter (specTotalCells (specRate d.slider_pitchRate)
            (env.volQStringToSI d.lineEdit_vol) (env.SG_20C20C_toPlato og))
            d.spinBox_Viability.value) 1) := by
  refine ⟨fun h => ?_, fun og h => ⟨_, calculate_of_le env fuel d og h hfuel, ?_, rfl, ?_, ?_⟩⟩
  · obtain ⟨n, rfl⟩ : ∃ n, fuel = n + 1 := ⟨fuel - 1, by omega⟩
    exact calculate_of_invalid env n d h
  · show env.arg (cellsOf env og d / Dbl.fin 1e9) 0 = _
    rw [cellsOf_eq_spec]; rfl
  · show env.displayAmount (cellsOf env og d / Dbl.fin 20e9) Units.grams = _
    rw [cellsOf_eq_spec]; rfl
  · show env.arg (vialsOf env og d) 1 = _
    rw [vialsOf, cellsOf_eq_spec]; rfl

/-- C4 (amended), at the volume text "abc": the cells published are the
rendering of 0, the number the reference environment returns for that text. -/
theorem calculate_aborts_on_gravity_only_witness :
    Text.toDouble refDialogVolAbc.lineEdit_vol = none ∧
    ∃ r, calculate refEnv 2 refDialogVolAbc = some r ∧
      r.lineEdit_cells = Text.fixed (Dbl.fin 0) 0 := by
  refine ⟨rfl, ?_⟩
  obtain ⟨r, hr, hcells, -, -, -⟩ :=
    (calculate_aborts_on_gravity_only refEnv 2 refDialogVolAbc (by decide)).2 _
      refVolAbc_parse_og
  refine ⟨r, hr, ?_⟩
  rw [hcells]
  have hvol : refEnv.volQStringToSI refDialogVolAbc.lineEdit_vol = Dbl.fin 0 := rfl
  rw [hvol]
  norm_num [refEnv, refDialogVolAbc, refDialog, specTotalCells, specRate, Dbl.fin_mul,
    Dbl.fin_add, Dbl.fin_div_def]

/-- C5 (as stated, refuted): for a production date one day back the viability
stored is 96, not `97 − 0.7 × 1 = 96.3`: the viability field is a `QSpinBox`,
which holds an `int`. -/
theorem updateViabilityFromDate_exact_counterexample :
    refEnv.currentDate - 2455197 = 1 ∧
    ∃ r, updateViabilityFromDate refEnv 2 2455197 refDialog = some r ∧
      r.spinBox_Viability.value = 96 ∧
      (r.spinBox_Viability.value : ℚ) ≠ 97 - 0.7 * ((1 : Int) : ℚ) := by
  refine ⟨by decide, ?_⟩
  obtain ⟨r, t, hr, hv, ht⟩ :=
    updateViabilityFromDate_value refEnv 2 2455197 refDialog (by decide) (by decide) (by decide)
  have ht96 : t = 96 := by
    rcases ht with ht | ⟨-, hmod, -⟩
    · rw [ht]
      decide
    · exact absurd hmod (by decide)
  have h96 : r.spinBox_Viability.value = 96 := by
    rw [hv, ht96]
    decide
  refine ⟨r, hr, h96, ?_⟩
  rw [h96]
  norm_num

/-- C5 (amended): for every production date with
`daysElapsed = today − productionDate ≥ 0` (an `int`),
`updateViabilityFromDate` returns, and the viability it stores is the double
`97 − 0.7 × daysElapsed` truncated toward zero to an integer `t` and then
bounded by the minimum and the maximum of the viability spin box.  The integer
`t` is the exact `97 − 0.7 × daysElapsed` truncated toward zero, that is
`(970 − 7 × daysElapsed)` divided by 10 with truncation, except that for a
multiple of 10 above 138, where the exact value is a negative integer, the
rounding of `0.7 × daysElapsed` can make `t` one more. -/
theorem updateViabilityFromDate_stores_truncated (env : Env QString) (fuel : Nat)
    (date : Int) (d : PitchDialog QString) (hfuel : 2 ≤ fuel)
    (h0 : 0 ≤ env.currentDate - date) (h1 : env.currentDate - date ≤ 2147483647) :
    ∃ r t, updateViabilityFromDate env fuel date d = some r ∧
      r.spinBox_Viability.value =
        min (max t d.spinBox_Viability.minimum) d.spinBox_Viability.maximum ∧
      (t = (970 - 7 * (env.currentDate - date)).tdiv 10 ∨
        (t = (970 - 7 * (env.currentDate - date)).tdiv 10 + 1 ∧
          (env.currentDate - date) % 10 = 0 ∧ 970 < 7 * (env.currentDate - date))) :=
  updateViabilityFromDate_value env fuel date d hfuel h0 h1

/-- C5 (amended), 170 days back with a viability spin box from −100 to 100:
the double `0.7 * 170` is `119 − 2^−46`, the double `97 − 0.7 * 170` is
`−22 + 2^−46`, and the viability stored is −21, one more than the exact
`97 − 119 = −22`. -/
theorem updateViabilityFromDate_stores_truncated_witness :
    refEnv.currentDate - 2455028 = 170 ∧
    ∃ r t, updateViabilityFromDate refEnv 2 2455028 refDialogNegative = some r ∧
      r.spinBox_Viability.value = t ∧ t = -21 ∧
      t = (970 - 7 * (refEnv.currentDate - 2455028)).tdiv 10 + 1 := by
  refine ⟨by decide, ?_⟩
  obtain ⟨r, t, hr, hv, -⟩ :=
    updateViabilityFromDate_stores_truncated refEnv 2 2455028 refDialogNegative (by decide)
      (by decide) (by decide)
  obtain ⟨r2, hr2, hsb, -⟩ :=
    updateViabilityFromDate_frame refEnv 2 2455028 refDialogNegative (by decide)
  have hrr : r = r2 := Option.some.inj (hr.symm.trans hr2)
  have hdays : refEnv.currentDate - 2455028 = 170 := by decide
  have hval : r.spinBox_Viability.value = -21 := by
    rw [hrr, hsb, hdays, toInt_viability_170]
    decide
  exact ⟨r, -21, hr, hval, rfl, by decide⟩

/-- C8: for every percent, `updateShownPitchRate(percent)` writes only the
pitch-rate label, which becomes the rendering to 2 decimals of
`0.75 + 1.25 × percent/100`; `calculate` computes the cells it publishes with
the same rate when the slider stands at `percent`; the rate is 0.75 at
percent 0 and 2 at percent 100. -/
theorem updateShownPitchRate_shows_rate (env : Env QString) (percent : Int)
    (d : PitchDialog QString) :
    updateShownPitchRate env percent d
      = { d with label_pitchRate := env.arg (Dbl.fin (0.75 + 1.25 * percent / 100)) 2 } ∧
    (∀ fuel og, 2 ≤ fuel → env.toDouble d.lineEdit_OG = some og →
      d.slider_pitchRate = percent →
      ∃ r, calculate env fuel d = some r ∧
        r.lineEdit_cells =
          env.arg (Dbl.fin (0.75 + 1.25 * percent / 100) * Dbl.fin 1e6
            * (env.volQStringToSI d.lineEdit_vol * Dbl.fin 1e3)
            * env.SG_20C20C_toPlato og / Dbl.fin 1e9) 0) ∧
    (updateShownPitchRate env 0 d).label_pitchRate = env.arg (Dbl.fin 0.75) 2 ∧
    (updateShownPitchRate env 100 d).label_pitchRate = env.arg (Dbl.fin 2) 2 := by
  refine ⟨?_, ?_, ?_, ?_⟩
  · simp only [updateShownPitchRate]
    rw [rate_eq_specRate, specRate]
  · intro fuel og hfuel hog hp
    refine ⟨_, calculate_of_le env fuel d og hog hfuel, ?_⟩
    show env.arg (cellsOf env og d / Dbl.fin 1e9) 0 = _
    rw [cellsOf_eq_spec, specCellsOf, specTotalCells, specRate, hp]
  · simp only [updateShownPitchRate]
    rw [rate_eq_specRate, specRate]
    norm_num
  · simp only [updateShownPitchRate]
    rw [rate_eq_specRate, specRate]
    norm_num

/-- C9: two dialogs that agree on the six inputs (gravity text, volume text,
pitch-rate percent, viability, vials pitched, aeration method), with a gravity
text that parses and vials pitched within the range of its spin box, get the
same outputs from `calculate` (cells, starter volume, dry yeast, vials needed,
maximum and value of vials pitched), whatever they displayed before and
whatever the range of vials pitched was; and calling `calculate` again on its
own result changes nothing. -/
theorem calculate_pure (env : Env QString) (fuel fuel2 : Nat)
    (d d2 : PitchDialog QString) (og : Dbl) (hfuel : 2 ≤ fuel) (hfuel2 : 2 ≤ fuel2)
    (h : env.toDouble d.lineEdit_OG = some og)
    (hOG : d.lineEdit_OG = d2.lineEdit_OG) (hvol : d.lineEdit_vol = d2.lineEdit_vol)
    (hrate : d.slider_pitchRate = d2.slider_pitchRate)
    (hviab : d.spinBox_Viability.value = d2.spinBox_Viability.value)
    (hvials : d.spinBox_VialsPitched.value = d2.spinBox_VialsPitched.value)
    (haer : d.comboBox_AerationMethod = d2.comboBox_AerationMethod)
    (hwf : d.spinBox_VialsPitched.minimum ≤ d.spinBox_VialsPitched.value)
    (hwf2 : d2.spinBox_VialsPitched.minimum ≤ d2.spinBox_VialsPitched.value) :
    ∃ r r2, calculate env fuel d = some r ∧ calculate env fuel2 d2 = some r2 ∧
      r.lineEdit_cells = r2.lineEdit_cells ∧
      r.lineEdit_starterVol = r2.lineEdit_starterVol ∧
      r.lineEdit_yeast = r2.lineEdit_yeast ∧
      r.lineEdit_vials = r2.lineEdit_vials ∧
      r.spinBox_VialsPitched.maximum = r2.spinBox_VialsPitched.maximum ∧
      r.spinBox_VialsPitched.value = r2.spinBox_VialsPitched.value ∧
      calculate env fuel r = some r := by
  have h2 : env.toDouble d2.lineEdit_OG = some og := hOG ▸ h
  have hcells : cellsOf env og d = cellsOf env og d2 := by
    simp only [cellsOf, hvol, hrate]
  have hvialsOf : vialsOf env og d = vialsOf env og d2 := by
    simp only [vialsOf, hcells, hviab]
  have hvialsD : vialsDoubleOf env og d = vialsDoubleOf env og d2 := by
    simp only [vialsDoubleOf, hvol, hrate, hviab]
  have hmax : maximumOf env og d = maximumOf env og d2 := by
    simp only [maximumOf, hvialsD]
  have hsbmax : (calculated env og d).spinBox_VialsPitched.maximum
      = (calculated env og d2).spinBox_VialsPitched.maximum := by
    show (QSpinBox.setMaximum _ _).maximum = (QSpinBox.setMaximum _ _).maximum
    rw [QSpinBox.setMaximum_maximum, QSpinBox.setMaximum_maximum, hmax]
  have hsbval : (calculated env og d).spinBox_VialsPitched.value
      = (calculated env og d2).spinBox_VialsPitched.value := by
    show (QSpinBox.setMaximum _ _).value = (QSpinBox.setMaximum _ _).value
    rw [QSpinBox.setMaximum_value_of_le _ _ hwf, QSpinBox.setMaximum_value_of_le _ _ hwf2,
      hmax, hvials]
  refine ⟨_, _, calculate_of_le env fuel d og h hfuel, calculate_of_le env fuel2 d2 og h2 hfuel2,
    ?_, ?_, ?_, ?_, hsbmax, hsbval, ?_⟩
  · show env.arg (cellsOf env og d / Dbl.fin 1e9) 0 = env.arg (cellsOf env og d2 / Dbl.fin 1e9) 0
    rw [hcells]
  · show env.displayAmount (starterOf env og d _) Units.liters
      = env.displayAmount (starterOf env og d2 _) Units.liters
    have hst : ∀ v, starterOf env og d v = starterOf env og d2 v := fun v => by
      simp only [starterOf, hcells, hviab, haer]
    rw [hst]
    exact congrArg (fun v => env.displayAmount (starterOf env og d2 v) Units.liters) hsbval
  · show env.displayAmount (cellsOf env og d / Dbl.fin 20e9) Units.grams
      = env.displayAmount (cellsOf env og d2 / Dbl.fin 20e9) Units.grams
    rw [hcells]
  · show env.arg (vialsOf env og d) 1 = env.arg (vialsOf env og d2) 1
    rw [hvialsOf]
  · have h3 : env.toDouble (calculated env og d).lineEdit_OG = some og := h
    rw [calculate_of_le env fuel _ og h3 hfuel, calculated_calculated]

/-- C9, at the reference dialog and the same inputs after another history. -/
theorem calculate_pure_witness :
    ∃ r r2, calculate refEnv 2 refDialog = some r ∧ calculate refEnv 3 refDialogOther = some r2 ∧
      r.lineEdit_cells = r2.lineEdit_cells ∧
      r.lineEdit_starterVol = r2.lineEdit_starterVol ∧
      r.lineEdit_yeast = r2.lineEdit_yeast ∧
      r.lineEdit_vials = r2.lineEdit_vials ∧
      r.spinBox_VialsPitched.maximum = r2.spinBox_VialsPitched.maximum ∧
      r.spinBox_VialsPitched.value = r2.spinBox_VialsPitched.value ∧
      calculate refEnv 2 r = some r :=
  calculate_pure refEnv 2 3 refDialog refDialogOther (Dbl.fin (21/20)) (by decide) (by decide)
    ref_parse_og rfl rfl rfl rfl rfl rfl (by decide) (by decide)

end Claims

end Brewtarget
